import Mathlib

/-!
Verification of the CAN-bus driver layer declared in `can.h`.

The repository ships `can.h` only: the enumerations, structures and the two
file-scope flags are taken directly from that header, while the bodies of the
declared functions (`can_send`, `can_setupBaudRate`, the two filter-setup
routines) are not part of the repository and are modelled from the
specification, as marked on each such definition.
-/

namespace Piclib

/-- Type of CanMessage, from `can.h` lines 23-28: NORMAL = 0b000,
HEARTBEAT = 0b001, CONFIG = 0b010, COMPLEX = 0b011. -/
inductive MessageType where
  | NORMAL
  | HEARTBEAT
  | CONFIG
  | COMPLEX
deriving DecidableEq, Repr, Fintype

/-- The numeric value of each `MessageType` enumerator, as assigned in `can.h`. -/
def MessageType.toNat : MessageType → Nat
  | .NORMAL => 0b000
  | .HEARTBEAT => 0b001
  | .CONFIG => 0b010
  | .COMPLEX => 0b011

/-- CanHeader structure from `can.h` lines 33-39.  `nodeID` has C type `byte`
(from the absent `utils.h`): an 8-bit unsigned value, modelled as a `Nat`
together with the bound `nodeID < 256` where a theorem needs it. -/
structure CanHeader where
  nodeID : Nat
  messageType : MessageType
deriving DecidableEq, Repr

/-- CanMessage structure from `can.h` lines 44-57: a header plus the
`isSwitchOn` boolean that becomes part of the data payload. -/
structure CanMessage where
  header : CanHeader
  isSwitchOn : Bool
deriving DecidableEq, Repr

/-- Modelled from the spec: `can.h` documents "By default the switch is on"
but C structures carry no default values; the spec fixes the constructor
default `isSwitchOn = true` when the caller does not specify it. -/
def mkCanMessage (h : CanHeader) : CanMessage :=
  { header := h, isSwitchOn := true }

/-- Modes of the controller, from `can.h` lines 60-64. -/
inductive Mode where
  | CONFIG_MODE
  | LOOPBACK_MODE
  | NORMAL_MODE
deriving DecidableEq, Repr

/-- The numeric value of each `Mode` enumerator, as assigned in `can.h`. -/
def Mode.toNat : Mode → Nat
  | .CONFIG_MODE => 0b100
  | .LOOPBACK_MODE => 0b010
  | .NORMAL_MODE => 0b000

/-- Code of result of sending a CAN message, from `can.h` lines 69-74. -/
inductive MessageStatusCode where
  | OK
  | ERROR
  | SENDING
  | NOTHING_SENT
deriving DecidableEq, Repr

/-- The numeric value of each `MessageStatusCode` enumerator. -/
def MessageStatusCode.toNat : MessageStatusCode → Nat
  | .OK => 0
  | .ERROR => 1
  | .SENDING => 2
  | .NOTHING_SENT => 3

/-- MessageStatus from `can.h` lines 79-82: status code and timestamp of the
last CAN send (timestamp unit is application-defined). -/
structure MessageStatus where
  statusCode : MessageStatusCode
  timestamp : Int
deriving DecidableEq, Repr

/-- Modelled from the spec: the header codec implementation is not in the
repository; the spec defines `encode(header) = (nodeID << 3) | messageType`,
packing the 8-bit nodeID into the high bits of the 11-bit CAN identifier. -/
def encode (h : CanHeader) : Nat :=
  (h.nodeID <<< 3) ||| h.messageType.toNat

/-- Modelled from the spec: the decoder maps the low 3 identifier bits back to
a message type, failing on the four unassigned 3-bit patterns. -/
def decodeMessageType : Nat → Option MessageType
  | 0b000 => some .NORMAL
  | 0b001 => some .HEARTBEAT
  | 0b010 => some .CONFIG
  | 0b011 => some .COMPLEX
  | _ => none

/-- Modelled from the spec: `decode(identifier)` recovers
`nodeID = identifier >> 3` and `messageType = identifier & 0b111`, producing
no header when the low 3 bits match no defined message type. -/
def decode (identifier : Nat) : Option CanHeader :=
  match decodeMessageType (identifier &&& 0b111) with
  | some mt => some { nodeID := identifier >>> 3, messageType := mt }
  | none => none

theorem MessageType.toNat_lt (mt : MessageType) : mt.toNat < 8 := by
  cases mt <;> decide

theorem encode_eq_arith (h : CanHeader) :
    encode h = 8 * h.nodeID + h.messageType.toNat := by
  have hmt : h.messageType.toNat < 2 ^ 3 := h.messageType.toNat_lt
  unfold encode
  rw [Nat.shiftLeft_eq, Nat.mul_comm, ← Nat.mul_add_lt_is_or hmt]

theorem encode_and_seven (h : CanHeader) :
    encode h &&& 7 = h.messageType.toNat := by
  have h7 : encode h &&& 2 ^ 3 - 1 = encode h % 2 ^ 3 :=
    Nat.and_pow_two_sub_one_eq_mod (encode h) 3
  have hmt : h.messageType.toNat < 8 := h.messageType.toNat_lt
  have he := encode_eq_arith h
  norm_num at h7
  omega

theorem encode_shiftRight_three (h : CanHeader) :
    encode h >>> 3 = h.nodeID := by
  have hmt : h.messageType.toNat < 8 := h.messageType.toNat_lt
  have he := encode_eq_arith h
  rw [Nat.shiftRight_eq_div_pow]
  norm_num
  omega

theorem decodeMessageType_toNat (mt : MessageType) :
    decodeMessageType mt.toNat = some mt := by
  cases mt <;> rfl

/-- C1: for every header with nodeID in 0..255 and messageType one of the four
defined enumeration values, decoding the encoded 11-bit CAN identifier with
`nodeID = identifier >> 3` and `messageType = identifier & 0b111` returns the
original header: `decode (encode h) = some h`. -/
theorem decode_encode_roundtrip (h : CanHeader) (hn : h.nodeID < 256) :
    decode (encode h) = some h := by
  unfold decode
  rw [encode_and_seven, decodeMessageType_toNat, encode_shiftRight_three]

theorem decode_encode_roundtrip_witness :
    (5 : Nat) < 256 ∧
      decode (encode { nodeID := 5, messageType := .CONFIG }) =
        some { nodeID := 5, messageType := .CONFIG } :=
  ⟨by decide, decode_encode_roundtrip { nodeID := 5, messageType := .CONFIG } (by decide)⟩

/-- C2: for every header with 8-bit nodeID and a defined message type,
`encode` equals `(nodeID <<< 3) ||| messageType`, is a total Lean function
(no error path), and its result is strictly below `2 ^ 11`. -/
theorem encode_def_and_bound (h : CanHeader) (hn : h.nodeID < 256) :
    encode h = (h.nodeID <<< 3) ||| h.messageType.toNat ∧ encode h < 2 ^ 11 := by
  refine ⟨rfl, ?_⟩
  have hmt : h.messageType.toNat < 8 := h.messageType.toNat_lt
  have he := encode_eq_arith h
  norm_num
  omega

theorem encode_def_and_bound_witness :
    (255 : Nat) < 256 ∧
      (encode { nodeID := 255, messageType := .COMPLEX } =
          ((255 : Nat) <<< 3) ||| MessageType.COMPLEX.toNat ∧
        encode { nodeID := 255, messageType := .COMPLEX } < 2 ^ 11) :=
  ⟨by decide, encode_def_and_bound { nodeID := 255, messageType := .COMPLEX } (by decide)⟩

/-- An acceptance mask/value register pair for one hardware filter slot. -/
structure FilterSpec where
  mask : Nat
  value : Nat
deriving DecidableEq, Repr

/-- A frame identifier passes a filter when it agrees with the filter value on
every bit selected by the mask (standard CAN acceptance-filter semantics). -/
def filterAccepts (f : FilterSpec) (identifier : Nat) : Bool :=
  (identifier &&& f.mask) == (f.value &&& f.mask)

/-- Modelled from the spec: the body of `can_setupStrictReceiveFilter` is not
in the repository; the spec fixes mask = all 11 bits set (0x7FF) and
value = `encode header`, checking all bits to be equal. -/
def strictFilterSpec (h : CanHeader) : FilterSpec :=
  { mask := 0x7FF, value := encode h }

/-- Modelled from the spec: the first-bit filter mask selects the three
messageType bits plus only the most-significant bit of the nodeID, i.e. bit 10
of the 11-bit identifier. -/
def firstBitMask : Nat :=
  (1 <<< 10) ||| 0b111

/-- Modelled from the spec: the body of `can_setupFirstBitIdReceiveFilter` is
not in the repository; the spec fixes mask = `firstBitMask` and value = the
encoded header restricted to those same bits. -/
def firstBitFilterSpec (h : CanHeader) : FilterSpec :=
  { mask := firstBitMask, value := encode h &&& firstBitMask }

/-- State of the filter configurator: the `filterSetup` toggle declared in
`can.h` line 111 (initially FALSE) together with the contents of the two
hardware filter slots. -/
structure FilterState where
  filterSetup : Bool
  first : Option FilterSpec
  second : Option FilterSpec
deriving DecidableEq, Repr

/-- The startup filter state: `boolean filterSetup = FALSE;` in `can.h`, with
neither hardware slot programmed yet. -/
def initFilterState : FilterState :=
  { filterSetup := false, first := none, second := none }

/-- Modelled from the spec: slot assignment for both filter-setup routines.
The first configuration call programs the FIRST slot and flips the
`filterSetup` flag; every subsequent call programs (overwrites) the SECOND
slot, leaving the FIRST slot unchanged. -/
def applyFilter (s : FilterState) (f : FilterSpec) : FilterState :=
  if s.filterSetup then { filterSetup := true, first := s.first, second := some f }
  else { filterSetup := true, first := some f, second := s.second }

/-- One call to either of the two filter-setup operations. -/
inductive FilterCall where
  | strict (h : CanHeader)
  | firstBit (h : CanHeader)
deriving DecidableEq, Repr

/-- The mask/value pair a given filter-setup call derives from its header. -/
def FilterCall.spec : FilterCall → FilterSpec
  | .strict h => strictFilterSpec h
  | .firstBit h => firstBitFilterSpec h

/-- Run a sequence of filter-setup calls from a given configurator state. -/
def runFilterCalls (s : FilterState) (cs : List FilterCall) : FilterState :=
  cs.foldl (fun t c => applyFilter t c.spec) s

theorem runFilterCalls_of_setup (cs : List FilterCall) :
    ∀ s : FilterState, s.filterSetup = true →
      (runFilterCalls s cs).filterSetup = true ∧
        (runFilterCalls s cs).first = s.first := by
  induction cs with
  | nil => intro s hs; exact ⟨hs, rfl⟩
  | cons c cs ih =>
      intro s hs
      have hstep : applyFilter s c.spec =
          { filterSetup := true, first := s.first, second := some c.spec } := by
        simp [applyFilter, hs]
      have := ih (applyFilter s c.spec) (by rw [hstep])
      simpa [runFilterCalls, hstep] using this

theorem runFilterCalls_cons (c : FilterCall) (cs : List FilterCall) :
    runFilterCalls initFilterState (c :: cs) =
      runFilterCalls { filterSetup := true, first := some c.spec, second := none } cs := by
  simp [runFilterCalls, initFilterState, applyFilter]

/-- C4: for every sequence of calls to the two filter-setup operations, the
`filterSetup` flag starts unset, the first call programs the FIRST slot and
sets the flag, and every subsequent call programs the SECOND slot, overwriting
its previous contents while leaving the FIRST slot unchanged: after
`c :: cs`, the FIRST slot holds the first call's pair, and the SECOND slot
holds the last pair of `cs` (none when `cs` is empty). -/
theorem filter_slot_assignment (c : FilterCall) (cs : List FilterCall) :
    initFilterState.filterSetup = false ∧
    (runFilterCalls initFilterState (c :: cs)).filterSetup = true ∧
    (runFilterCalls initFilterState (c :: cs)).first = some c.spec ∧
    (cs = [] → (runFilterCalls initFilterState (c :: cs)).second = none) ∧
    (∀ cs₀ clast, cs = cs₀ ++ [clast] →
      (runFilterCalls initFilterState (c :: cs)).second = some clast.spec) := by
  have hmain := runFilterCalls_of_setup cs
    { filterSetup := true, first := some c.spec, second := none } rfl
  rw [runFilterCalls_cons]
  refine ⟨rfl, hmain.1, hmain.2, ?_, ?_⟩
  · rintro rfl
    rfl
  · rintro cs₀ clast rfl
    have hsetup := runFilterCalls_of_setup cs₀
      { filterSetup := true, first := some c.spec, second := none } rfl
    have happ : runFilterCalls
        { filterSetup := true, first := some c.spec, second := none } (cs₀ ++ [clast]) =
        applyFilter (runFilterCalls
          { filterSetup := true, first := some c.spec, second := none } cs₀) clast.spec := by
      simp [runFilterCalls]
    rw [happ, applyFilter, if_pos hsetup.1]

theorem filter_slot_assignment_witness :
    ([FilterCall.firstBit { nodeID := 1, messageType := .NORMAL },
      FilterCall.strict { nodeID := 2, messageType := .CONFIG }] =
        [FilterCall.firstBit { nodeID := 1, messageType := .NORMAL }] ++
          [FilterCall.strict { nodeID := 2, messageType := .CONFIG }]) ∧
    (runFilterCalls initFilterState
        (FilterCall.strict { nodeID := 0, messageType := .NORMAL } ::
          [FilterCall.firstBit { nodeID := 1, messageType := .NORMAL },
           FilterCall.strict { nodeID := 2, messageType := .CONFIG }])).second =
      some (FilterCall.strict { nodeID := 2, messageType := .CONFIG }).spec :=
  ⟨rfl,
    (filter_slot_assignment (FilterCall.strict { nodeID := 0, messageType := .NORMAL })
        [FilterCall.firstBit { nodeID := 1, messageType := .NORMAL },
         FilterCall.strict { nodeID := 2, messageType := .CONFIG }]).2.2.2.2
      [FilterCall.firstBit { nodeID := 1, messageType := .NORMAL }]
      (FilterCall.strict { nodeID := 2, messageType := .CONFIG }) rfl⟩

theorem and_with_0x7FF (x : Nat) : x &&& 0x7FF = x % 2048 := by
  have := Nat.and_pow_two_sub_one_eq_mod x 11
  norm_num at this
  exact this

/-- C7: for every valid header, the strict receive filter has mask 0x7FF (all
11 identifier bits checked) and value `encode h`, so an 11-bit frame
identifier is accepted by that filter if and only if it exactly equals the
encoded header. -/
theorem strict_filter_exact (h : CanHeader) (hn : h.nodeID < 256)
    (identifier : Nat) (hid : identifier < 2 ^ 11) :
    (strictFilterSpec h).mask = 0x7FF ∧
    (strictFilterSpec h).value = encode h ∧
    (filterAccepts (strictFilterSpec h) identifier = true ↔ identifier = encode h) := by
  refine ⟨rfl, rfl, ?_⟩
  have henc : encode h < 2048 := by
    have hmt : h.messageType.toNat < 8 := h.messageType.toNat_lt
    have he := encode_eq_arith h
    omega
  have hid' : identifier < 2048 := by
    norm_num at hid
    exact hid
  simp only [filterAccepts, strictFilterSpec, and_with_0x7FF, beq_iff_eq,
    Nat.mod_eq_of_lt henc, Nat.mod_eq_of_lt hid']

theorem strict_filter_exact_witness :
    (3 : Nat) < 256 ∧ (27 : Nat) < 2 ^ 11 ∧
      (filterAccepts (strictFilterSpec { nodeID := 3, messageType := .COMPLEX }) 27 = true ↔
        (27 : Nat) = encode { nodeID := 3, messageType := .COMPLEX }) :=
  ⟨by decide, by decide,
    (strict_filter_exact { nodeID := 3, messageType := .COMPLEX } (by decide) 27 (by decide)).2.2⟩

theorem firstBitMask_eq : firstBitMask = 0x407 := by
  decide

theorem firstBitMask_testBit (i : Nat) :
    firstBitMask.testBit i = decide (i = 10 ∨ i = 2 ∨ i = 1 ∨ i = 0) := by
  rw [firstBitMask_eq]
  rcases Nat.lt_or_ge i 11 with hlt | hge
  · interval_cases i <;> decide
  · have hmono : (2 : Nat) ^ 11 ≤ 2 ^ i := Nat.pow_le_pow_right (by norm_num) hge
    have hsmall : (0x407 : Nat) < 2 ^ i := lt_of_lt_of_le (by norm_num) hmono
    rw [Nat.testBit_eq_false_of_lt hsmall]
    have : ¬(i = 10 ∨ i = 2 ∨ i = 1 ∨ i = 0) := by omega
    simp [this]

/-- C8: for every header, the first-bit receive filter has a mask whose set
bits are exactly bit 10 (the nodeID most-significant bit) and bits 0-2 (the
messageType bits), and a value equal to the encoded header restricted to those
bits; in particular for nodeID 0b10000000 and messageType CONFIG the mask has
exactly bits 10, 2, 1 and 0 set. -/
theorem firstbit_filter_mask (h : CanHeader) :
    (firstBitFilterSpec h).mask = 0x407 ∧
    (firstBitFilterSpec h).value = encode h &&& (firstBitFilterSpec h).mask ∧
    (∀ i : Nat, (firstBitFilterSpec h).mask.testBit i = true ↔
      (i = 10 ∨ i = 2 ∨ i = 1 ∨ i = 0)) ∧
    (firstBitFilterSpec { nodeID := 0b10000000, messageType := .CONFIG }).mask
      = 0b10000000111 := by
  refine ⟨firstBitMask_eq, rfl, ?_, firstBitMask_eq⟩
  intro i
  rw [show (firstBitFilterSpec h).mask = firstBitMask from rfl, firstBitMask_testBit]
  simp

theorem firstbit_filter_mask_witness :
    (firstBitFilterSpec { nodeID := 0b10000000, messageType := .CONFIG }).mask.testBit 10
        = true ∧
      (firstBitFilterSpec { nodeID := 0b10000000, messageType := .CONFIG }).mask.testBit 3
        = false :=
  ⟨((firstbit_filter_mask { nodeID := 0b10000000, messageType := .CONFIG }).2.2.1 10).mpr
      (by omega),
    by
      have := (firstbit_filter_mask { nodeID := 0b10000000, messageType := .CONFIG }).2.2.1 3
      have hne : ¬((3 : Nat) = 10 ∨ (3 : Nat) = 2 ∨ (3 : Nat) = 1 ∨ (3 : Nat) = 0) := by omega
      rcases hbit : (firstBitFilterSpec
          { nodeID := 0b10000000, messageType := .CONFIG }).mask.testBit 3 with _ | _
      · rfl
      · exact absurd (this.mp hbit) hne⟩

/-- The bit-timing register values for one baud-rate configuration: segment
lengths in time quanta and the clock prescaler. -/
structure BaudTiming where
  syncSeg : Nat
  propSeg : Nat
  phaseSeg1 : Nat
  phaseSeg2 : Nat
  prescaler : Nat
deriving DecidableEq, Repr

/-- Modelled from the spec: the body of `can_setupBaudRate` is not in the
repository.  Per the spec it uses a fixed 16-time-quantum bit period (1 sync
quantum plus propagation/phase segments summing to 15, biased toward the
propagation segment), accepts `baudRate` in kbit/s up to 500 and `cpuSpeed`
in MHz, and requires an exact integer prescaler with
`prescaler * 16 * baudRate_bit/s = cpuSpeed_Hz`; an unsatisfiable combination
is rejected (`none`), never approximated. -/
def can_setupBaudRate (baudRate cpuSpeed : Nat) : Option BaudTiming :=
  if baudRate ≤ 500 ∧ 0 < baudRate ∧ cpuSpeed * 1000 % (16 * baudRate) = 0 then
    some { syncSeg := 1, propSeg := 7, phaseSeg1 := 4, phaseSeg2 := 4,
           prescaler := cpuSpeed * 1000 / (16 * baudRate) }
  else none

/-- C5: whenever no integer prescaler satisfies
`prescaler * 16 * baudRate = cpuSpeed` in consistent units (baudRate in
kbit/s, cpuSpeed in MHz), `can_setupBaudRate` signals a configuration error
(`none`) and programs no approximated timing. -/
theorem baud_rate_rejects (baudRate cpuSpeed : Nat)
    (hno : ∀ p : Nat, p * 16 * (baudRate * 1000) ≠ cpuSpeed * 1000000) :
    can_setupBaudRate baudRate cpuSpeed = none := by
  unfold can_setupBaudRate
  rw [if_neg]
  rintro ⟨-, hpos, hmod⟩
  have hdvd : 16 * baudRate ∣ cpuSpeed * 1000 := Nat.dvd_of_mod_eq_zero hmod
  have hcancel : cpuSpeed * 1000 / (16 * baudRate) * (16 * baudRate) = cpuSpeed * 1000 :=
    Nat.div_mul_cancel hdvd
  refine hno (cpuSpeed * 1000 / (16 * baudRate)) ?_
  calc cpuSpeed * 1000 / (16 * baudRate) * 16 * (baudRate * 1000)
      = cpuSpeed * 1000 / (16 * baudRate) * (16 * baudRate) * 1000 := by ring
    _ = cpuSpeed * 1000 * 1000 := by rw [hcancel]
    _ = cpuSpeed * 1000000 := by ring

theorem baud_rate_rejects_witness :
    (∀ p : Nat, p * 16 * (300 * 1000) ≠ 16 * 1000000) ∧
      can_setupBaudRate 300 16 = none := by
  have hno : ∀ p : Nat, p * 16 * (300 * 1000) ≠ 16 * 1000000 := by
    intro p
    omega
  exact ⟨hno, baud_rate_rejects 300 16 hno⟩

/-- C6: every accepted `(baudRate, cpuSpeed)` configuration yields segments
with `syncSeg = 1` summing to 16 time quanta and a prescaler that reproduces
the requested baud exactly (`prescaler * 16 * baudRate_bit/s = cpuSpeed_Hz`);
in particular 16 MHz / 500 kbit/s yields prescaler 2 and segment sum 16. -/
theorem baud_rate_exact (baudRate cpuSpeed : Nat) (t : BaudTiming)
    (ht : can_setupBaudRate baudRate cpuSpeed = some t) :
    t.syncSeg = 1 ∧
    t.syncSeg + t.propSeg + t.phaseSeg1 + t.phaseSeg2 = 16 ∧
    t.prescaler * 16 * (baudRate * 1000) = cpuSpeed * 1000000 ∧
    can_setupBaudRate 500 16 =
      some { syncSeg := 1, propSeg := 7, phaseSeg1 := 4, phaseSeg2 := 4, prescaler := 2 } := by
  unfold can_setupBaudRate at ht
  split at ht
  case isFalse => exact absurd ht (by simp)
  case isTrue hcond =>
    obtain ⟨-, hpos, hmod⟩ := hcond
    have hdvd : 16 * baudRate ∣ cpuSpeed * 1000 := Nat.dvd_of_mod_eq_zero hmod
    have hcancel : cpuSpeed * 1000 / (16 * baudRate) * (16 * baudRate) = cpuSpeed * 1000 :=
      Nat.div_mul_cancel hdvd
    obtain rfl := (Option.some_inj.mp ht).symm
    refine ⟨rfl, rfl, ?_, by decide⟩
    calc cpuSpeed * 1000 / (16 * baudRate) * 16 * (baudRate * 1000)
        = cpuSpeed * 1000 / (16 * baudRate) * (16 * baudRate) * 1000 := by ring
      _ = cpuSpeed * 1000 * 1000 := by rw [hcancel]
      _ = cpuSpeed * 1000000 := by ring

theorem baud_rate_exact_witness :
    can_setupBaudRate 500 16 =
        some { syncSeg := 1, propSeg := 7, phaseSeg1 := 4, phaseSeg2 := 4, prescaler := 2 } ∧
      (2 : Nat) * 16 * (500 * 1000) = 16 * 1000000 := by
  have ht : can_setupBaudRate 500 16 =
      some { syncSeg := 1, propSeg := 7, phaseSeg1 := 4, phaseSeg2 := 4, prescaler := 2 } := by
    decide
  exact ⟨ht, (baud_rate_exact 500 16 _ ht).2.2.1⟩

/-- The content of the single transmit buffer (TXB0): the encoded 11-bit
identifier and payload byte 0, which carries the `isSwitchOn` flag; the
remaining payload bytes are collaborator-defined and out of scope. -/
structure CanFrame where
  identifier : Nat
  byte0 : Nat
deriving DecidableEq, Repr

/-- The observable driver state: the `messageStatus` singleton from `can.h`
line 86, the filter configurator state, the transmit buffer and the programmed
bit timing. -/
structure DriverState where
  messageStatus : MessageStatus
  filterState : FilterState
  txBuffer : Option CanFrame
  baudTiming : Option BaudTiming
deriving DecidableEq, Repr

/-- Modelled from the spec: the startup state.  The transmit status tracker is
initialized to NOTHING_SENT (timestamp undefined at startup, modelled as 0),
no filter is set up and nothing has been sent. -/
def initDriverState : DriverState :=
  { messageStatus := { statusCode := .NOTHING_SENT, timestamp := 0 },
    filterState := initFilterState,
    txBuffer := none,
    baudTiming := none }

/-- Modelled from the spec: the body of `can_send` is not in the repository.
It writes the encoded identifier and the payload (with `isSwitchOn` packed
into byte 0) to the TXB0 transmit buffer and sets the status to SENDING
stamped with the current time, regardless of the prior status. -/
def can_send (s : DriverState) (msg : CanMessage) (now : Int) : DriverState :=
  { s with
    messageStatus := { statusCode := .SENDING, timestamp := now },
    txBuffer := some { identifier := encode msg.header,
                       byte0 := if msg.isSwitchOn then 1 else 0 } }

/-- One driver operation, i.e. one call of a function declared in `can.h`.
External OK/ERROR updates are performed by the application, not the driver,
and are therefore not driver operations. -/
inductive DriverOp where
  | init
  | setMode (m : Mode)
  | setupBaudRate (baudRate cpuSpeed : Nat)
  | setupStrictReceiveFilter (h : CanHeader)
  | setupFirstBitIdReceiveFilter (h : CanHeader)
  | send (msg : CanMessage) (now : Int)
deriving DecidableEq

/-- Modelled from the spec: the effect of each driver operation on the
observable driver state.  Only `can_send` touches the transmit status;
`can_init` and `can_setMode` configure ports and controller mode registers,
which are outside this state. -/
def driverStep (s : DriverState) : DriverOp → DriverState
  | .init => s
  | .setMode _ => s
  | .setupBaudRate baudRate cpuSpeed =>
      match can_setupBaudRate baudRate cpuSpeed with
      | some t => { s with baudTiming := some t }
      | none => s
  | .setupStrictReceiveFilter h =>
      { s with filterState := applyFilter s.filterState (strictFilterSpec h) }
  | .setupFirstBitIdReceiveFilter h =>
      { s with filterState := applyFilter s.filterState (firstBitFilterSpec h) }
  | .send msg now => can_send s msg now

/-- C3: the transmit status tracker starts in NOTHING_SENT; every `can_send`
call sets the status code to SENDING and the timestamp to the call time,
regardless of the prior state; no driver operation other than `can_send`
changes the status code or timestamp; and no driver operation moves the
tracker out of SENDING. -/
theorem transmit_status_tracker (s : DriverState) (op : DriverOp)
    (msg : CanMessage) (now : Int) :
    initDriverState.messageStatus.statusCode = .NOTHING_SENT ∧
    (driverStep s (.send msg now)).messageStatus =
      { statusCode := .SENDING, timestamp := now } ∧
    ((∀ m t, op ≠ .send m t) → (driverStep s op).messageStatus = s.messageStatus) ∧
    (s.messageStatus.statusCode = .SENDING →
      (driverStep s op).messageStatus.statusCode = .SENDING) := by
  refine ⟨rfl, rfl, ?_, ?_⟩
  · intro hne
    cases op with
    | init => rfl
    | setMode m => rfl
    | setupBaudRate b c =>
        simp only [driverStep]
        cases can_setupBaudRate b c <;> rfl
    | setupStrictReceiveFilter h => rfl
    | setupFirstBitIdReceiveFilter h => rfl
    | send m t => exact absurd rfl (hne m t)
  · intro hsending
    cases op with
    | init => exact hsending
    | setMode m => exact hsending
    | setupBaudRate b c =>
        simp only [driverStep]
        cases can_setupBaudRate b c <;> exact hsending
    | setupStrictReceiveFilter h => exact hsending
    | setupFirstBitIdReceiveFilter h => exact hsending
    | send m t => rfl

theorem transmit_status_tracker_witness :
    (∀ m t, DriverOp.init ≠ DriverOp.send m t) ∧
      (driverStep initDriverState .init).messageStatus = initDriverState.messageStatus :=
  ⟨fun _ _ h => DriverOp.noConfusion h,
    (transmit_status_tracker initDriverState .init
        { header := { nodeID := 0, messageType := .NORMAL }, isSwitchOn := true } 0).2.2.1
      (fun _ _ h => DriverOp.noConfusion h)⟩

/-- C9: a CanMessage constructed without the caller specifying `isSwitchOn`
has `isSwitchOn = true`, and `can_send` packs that default true value into
payload byte 0 (as the byte value 1). -/
theorem default_switch_on (h : CanHeader) (s : DriverState) (now : Int) :
    (mkCanMessage h).isSwitchOn = true ∧
    (can_send s (mkCanMessage h) now).txBuffer =
      some { identifier := encode h, byte0 := 1 } :=
  ⟨rfl, rfl⟩

/-- C10: because the four MessageType values are 0b000..0b011, every encoded
identifier has bit 2 (the high bit of the 3-bit messageType field) clear;
hence `encode` reaches at most 1024 of the 2048 possible 11-bit identifiers,
and every identifier whose low 3 bits are 0b100 or greater decodes to no
defined message type. -/
theorem messageType_bit2_clear (h : CanHeader) (identifier : Nat)
    (hid : 4 ≤ identifier &&& 0b111) :
    (encode h).testBit 2 = false ∧
    ((Finset.range 256 ×ˢ (Finset.univ : Finset MessageType)).image
        (fun p => encode { nodeID := p.1, messageType := p.2 })).card ≤ 1024 ∧
    decode identifier = none := by
  refine ⟨?_, ?_, ?_⟩
  · have hmt : h.messageType.toNat < 4 := by cases h.messageType <;> decide
    have he := encode_eq_arith h
    rw [Nat.testBit_to_div_mod]
    norm_num
    omega
  · have hle := Finset.card_image_le
      (s := Finset.range 256 ×ˢ (Finset.univ : Finset MessageType))
      (f := fun p => encode { nodeID := p.1, messageType := p.2 })
    have hcard : (Finset.range 256 ×ˢ (Finset.univ : Finset MessageType)).card = 1024 := by
      rw [Finset.card_product, Finset.card_range, Finset.card_univ]
      rfl
    omega
  · have hlt : identifier &&& 0b111 < 8 := by
      have h8 := Nat.and_lt_two_pow identifier (show (0b111 : Nat) < 2 ^ 3 by norm_num)
      norm_num at h8
      exact h8
    have hnone : decodeMessageType (identifier &&& 0b111) = none := by
      set k := identifier &&& 0b111 with hk
      interval_cases k <;> rfl
    simp [decode, hnone]

theorem messageType_bit2_clear_witness :
    (4 : Nat) ≤ 4 &&& 0b111 ∧ decode 4 = none :=
  ⟨by decide,
    (messageType_bit2_clear { nodeID := 0, messageType := .NORMAL } 4 (by decide)).2.2⟩

end Piclib
